import Mathlib

/-!
Verification of the identifier-mapping and bidirectional selection/filter
synchronization engine of the `02-ProJectBIMetric` Power BI / APS viewer
visual.  The definitions below are shallow embeddings of the TypeScript
source:

* `visuals/aps-viewer-visual/src/visual.ts` — `Visual.update` (filter-state
  classification and data accumulation), `Visual.handleSelectionChange`,
  `Visual.syncSelectionState`, `Visual.buildReverseMapping`;
* the ExternalId-first `viewer.utils` module — `IdMapping.getDbids`,
  `IdMapping.getExternalIds`, `getSelectionAsExternalIds`.

EIDs (ExternalIds) are `String`, INIDs (dbIds) are `Nat` (dbIds are
non-negative integers in the source; the `dbId != null && !isNaN(dbId)`
guards of the source are consequently vacuous here and noted where they
occur).  The scene's instance tree is an inductive forest.
-/

namespace BIMetric

/-- Embedding of JavaScript `String.prototype.trim()`: removes leading and
trailing whitespace.  (Lean's built-in `String.trim` is extensionally the
same but does not reduce in the kernel, so the character-list form is used.) -/
def jsTrim (s : String) : String :=
  String.mk (((s.data.dropWhile Char.isWhitespace).reverse.dropWhile Char.isWhitespace).reverse)

/-- Push an element onto the end of a list unless it is already present.
This is the `if (!set.has(x)) { arr.push(x); set.add(x) }` idiom used
throughout `visual.ts` (current-batch dedup, accumulation, `Set<number>`
insertion order in the container expansion). -/
def pushUnique {α : Type} [DecidableEq α] (acc : List α) (x : α) : List α :=
  if x ∈ acc then acc else acc ++ [x]

/-! ## Scene instance tree

The viewer's instance tree (`model.getInstanceTree()`): nodes carry a dbId
and a list of child subtrees.  `getNodeType(dbid) != null` (node existence)
is embedded as `findNode` returning `some`; `getChildCount` is the number of
direct children; `enumNodeChildren(dbid, cb, true)` enumerates all strict
descendants; `getNodeParentId` is `parentList`. -/

inductive NTree where
  | node : Nat → List NTree → NTree

def NTree.rootId : NTree → Nat
  | .node i _ => i

def NTree.childCount : NTree → Nat
  | .node _ cs => cs.length

mutual

def findIn : NTree → Nat → Option NTree
  | .node j cs, i => if j = i then some (.node j cs) else findNode cs i

def findNode : List NTree → Nat → Option NTree
  | [], _ => none
  | t :: ts, i =>
    match findIn t i with
    | some r => some r
    | none => findNode ts i

end

mutual

def subtreeIds : NTree → List Nat
  | .node i cs => i :: subtreeIdsL cs

def subtreeIdsL : List NTree → List Nat
  | [] => []
  | t :: ts => subtreeIds t ++ subtreeIdsL ts

end

/-- All strict descendants of a node, in depth-first order — the ids visited
by `tree.enumNodeChildren(dbid, cb, true)`. -/
def NTree.descendantIds : NTree → List Nat
  | .node _ cs => subtreeIdsL cs

mutual

def parentIn : NTree → Nat → Option Nat
  | .node j cs, i =>
    if (cs.map NTree.rootId).contains i then some j else parentList cs i

def parentList : List NTree → Nat → Option Nat
  | [], _ => none
  | t :: ts, i =>
    match parentIn t i with
    | some p => some p
    | none => parentList ts i

end

/-! ## IdMapping (ExternalId-first `viewer.utils` module)

The scene's external-id table (`model.getExternalIdMapping`) is a JS object;
it is embedded as an association list of `(externalId, dbId)` entries, with
`Object.entries` order = list order.  Lookup of a key is `List.lookup`
(object keys are unique).  The derived reverse object assigns to each dbId
the *last* entry's externalId (later assignments overwrite). -/

def reverseLookup (mapping : List (String × Nat)) (d : Nat) : Option String :=
  ((mapping.filter (fun p => p.2 = d)).getLast?).map (fun p => p.1)

/-- Embedding of `IdMapping.getDbids`: trims each input EID, skips empty
ones, and silently drops EIDs with no dbId in the mapping.  The source's
`dbId != null && !isNaN(dbId)` guard is vacuous for `Nat` dbIds. -/
def getDbids (mapping : List (String × Nat)) (externalIds : List String) : List Nat :=
  externalIds.foldr
    (fun rawId acc =>
      let e := jsTrim rawId
      if e = "" then acc
      else
        match mapping.lookup e with
        | some d => d :: acc
        | none => acc)
    []

/-- One step of the ancestor walk of `IdMapping.getExternalIds`: follow
`getNodeParentId` upward for at most `fuel` (source: 100) hops, returning
the first ancestor with a truthy reverse-mapping entry. -/
def walkUp (mapping : List (String × Nat)) (roots : List NTree) : Nat → Nat → Option String
  | 0, _ => none
  | fuel + 1, current =>
    match parentList roots current with
    | none => none
    | some p =>
      if p = current then none
      else
        match reverseLookup mapping p with
        | some e => if e = "" then walkUp mapping roots fuel p else some e
        | none => walkUp mapping roots fuel p

/-- Embedding of the per-dbId resolution of `IdMapping.getExternalIds`:
direct reverse-mapping hit first (`if (reverse[dbid])` — a truthy test, so
an empty-string entry falls through), then the bounded ancestor walk. -/
def resolveSingle (mapping : List (String × Nat)) (roots : List NTree) (d : Nat) : Option String :=
  match reverseLookup mapping d with
  | some e => if e = "" then walkUp mapping roots 100 d else some e
  | none => walkUp mapping roots 100 d

/-- Embedding of `IdMapping.getExternalIds`: resolved EIDs in input order;
unresolved dbIds are omitted from the result. -/
def getExternalIds (mapping : List (String × Nat)) (roots : List NTree)
    (dbids : List Nat) : List String :=
  dbids.filterMap (resolveSingle mapping roots)

/-! ## `Visual.update` — data accumulation and filter-state classification

A row is represented by its `externalIds`-role cell (`Option String`; `none`
is a null cell).  `computeCurrentBatch` embeds the row loop of `update()`
that builds `currentBatchIds` (trim, skip empty, dedup via
`currentRowSet`); the per-row `elementDataMap` / selection-id bookkeeping is
independent of the accumulated-EID universe and the classifier and is not
modelled. -/

/-- One row of the `currentBatchIds` loop: skip null cells, trim, skip
empty strings, dedup-push. -/
def batchStep (acc : List String) (cell : Option String) : List String :=
  match cell with
  | none => acc
  | some v =>
    let e := jsTrim v
    if e = "" then acc else pushUnique acc e

def computeCurrentBatch (rows : List (Option String)) : List String :=
  rows.foldl batchStep []

/-- Embedding of the accumulation loop of `update()`: union the current
batch's EIDs into `this.externalIds`, deduplicated, preserving order
(`existingIdsSet` + push). -/
def accumulateIds (externalIds batch : List String) : List String :=
  batch.foldl pushUnique externalIds

/-- One update cycle's inputs: `operationKind` (`Create` / `Append`),
`metadata.segment != null`, `metadata.isDataFilterApplied`, and the visible
rows of the data view. -/
structure UpdateCycle where
  isCreate : Bool
  isAppend : Bool
  hasSegment : Bool
  isDataFilterApplied : Bool
  rows : List (Option String)

/-- The accumulated dataset of the visual: `this.allRows` and
`this.externalIds`. -/
structure AccumState where
  allRows : List (Option String)
  externalIds : List String

/-- Embedding of the data-accumulation part of `update()`:
reset on `Create` without filter (lines 192-199), then, when no filter is
applied, concatenate the rows and union the deduplicated batch EIDs
(lines 380-398).  A filtered cycle leaves the accumulated state untouched. -/
def accumUpdate (st : AccumState) (c : UpdateCycle) : AccumState :=
  let st0 := if c.isCreate && !c.isDataFilterApplied then AccumState.mk [] [] else st
  let batch := computeCurrentBatch c.rows
  if !c.isDataFilterApplied then
    AccumState.mk (st0.allRows ++ c.rows) (accumulateIds st0.externalIds batch)
  else st0

/-- The visual state entering the filter-detection section of `update()`:
the accumulated EID universe, `lastFilteredIds`, the own-selection flag
`isDbIdSelectionActive`, and viewer readiness
(`viewer && isViewerReady && idMapping`). -/
structure UpdState where
  externalIds : List String
  lastFilteredIds : Option (List String)
  isDbIdSelectionActive : Bool
  viewerReady : Bool

/-- The value of `this.externalIds` at the filter-detection section
(line 481): the pre-cycle universe after the `Create`-without-filter reset
and the unfiltered accumulation have run. -/
def postAccumIds (st : UpdState) (c : UpdateCycle) : List String :=
  let base := if c.isCreate && !c.isDataFilterApplied then [] else st.externalIds
  if !c.isDataFilterApplied then accumulateIds base (computeCurrentBatch c.rows) else base

/-- Line 474: `isPaginating = isAppend || hasSegment`. -/
def isPaginatingB (c : UpdateCycle) : Bool :=
  c.isAppend || c.hasSegment

/-- Lines 478-481: `hasFilterByCount = currentBatchIds.length > 0 &&
this.externalIds.length > 0 && currentBatchIds.length !== this.externalIds.length`. -/
def hasFilterByCountB (st : UpdState) (c : UpdateCycle) : Bool :=
  decide (0 < (computeCurrentBatch c.rows).length) &&
  decide (0 < (postAccumIds st c).length) &&
  decide ((computeCurrentBatch c.rows).length ≠ (postAccumIds st c).length)

/-- Lines 486-489: `isExternalFilter = !isDbIdSelectionActive &&
!isPaginating && (isDataFilterApplied || hasFilterByCount)`. -/
def isExternalFilterB (st : UpdState) (c : UpdateCycle) : Bool :=
  !st.isDbIdSelectionActive && !isPaginatingB c &&
  (c.isDataFilterApplied || hasFilterByCountB st c)

/-- Lines 495-502: `isFilterCleared = wasFiltered && !isDbIdSelectionActive
&& !isDataFilterApplied && !hasFilterByCount`. -/
def isFilterClearedB (st : UpdState) (c : UpdateCycle) : Bool :=
  st.lastFilteredIds.isSome && !st.isDbIdSelectionActive &&
  !c.isDataFilterApplied && !hasFilterByCountB st c

/-- The action `update()` takes for the filter-state component in one cycle:
store a pending selection (viewer not ready), isolate the current batch
(STATE 1, external filter active), clear the filter view (STATE 2, show-all
and color restore), the initial steady color sync, or nothing. -/
inductive UpdAction where
  | storePending : List String → UpdAction
  | notReadyNoop : UpdAction
  | isolate : List String → UpdAction
  | clearFilter : UpdAction
  | steadyInitialSync : UpdAction
  | noop : UpdAction
deriving DecidableEq

/-- Embedding of the filter-state decision of `update()` (lines 491-594):
the viewer-readiness guard (lines 527-535), STATE 1 isolation
(lines 539-558), STATE 2 filter-cleared (lines 560-579) and the steady
branch (lines 580-594), with `idsToIsolate = isExternalFilter ?
currentBatchIds : []` (line 492). -/
def updClassify (st : UpdState) (c : UpdateCycle) : UpdAction :=
  let cur := computeCurrentBatch c.rows
  let idsToIsolate := if isExternalFilterB st c then cur else []
  if !st.viewerReady then
    if isExternalFilterB st c && decide (0 < idsToIsolate.length) then
      .storePending idsToIsolate
    else .notReadyNoop
  else if isExternalFilterB st c && decide (0 < idsToIsolate.length) && !isPaginatingB c then
    .isolate idsToIsolate
  else if isFilterClearedB st c then .clearFilter
  else if !c.isDataFilterApplied && !st.isDbIdSelectionActive && !isPaginatingB c then
    if st.lastFilteredIds.isNone then .steadyInitialSync else .noop
  else .noop

/-! ## `Visual.syncSelectionState` — isolation path

The shared scene state mutated by the synchronizer: the isolation set
(`none` = show all), the set of nuclear-green themed dbIds, the viewer
selection, and the camera-fit target (`none` = whole model). -/

structure Scene where
  isolation : Option (List Nat)
  themed : List Nat
  selection : List Nat
  camera : Option (List Nat)
deriving DecidableEq

/-- The fail-safe end state: `clearSelection(); clearThemingColors();
showAll()` (show-all isolates `undefined` and fits the camera to the whole
model). -/
def failSafeScene : Scene :=
  Scene.mk none [] [] none

/-- Which awaited scene/mapping operations of `syncSelectionState` reject in
a given run (error injection for the `try`/`catch` of lines 1374-1574). -/
structure SyncFailSpec where
  resolveFails : Bool
  isolateFails : Bool
  themeFails : Bool
  fitFails : Bool

/-- Embedding of the verification loop (lines 1428-1443): keep the dbIds for
which `tree.getNodeType(dbid)` does not throw and is non-null, i.e. the
node exists in the loaded scene. -/
def verifyDbIds (roots : List NTree) (dbids : List Nat) : List Nat :=
  dbids.filter (fun d => (findNode roots d).isSome)

/-- One iteration of the container-expansion loop (lines 1458-1470): add
the node itself to the `Set`, then, if `getChildCount(dbid) > 0`, add every
strict descendant enumerated by `enumNodeChildren(dbid, cb, true)`. -/
def expandStep (roots : List NTree) (acc : List Nat) (d : Nat) : List Nat :=
  let acc1 := pushUnique acc d
  match findNode roots d with
  | some t => if 0 < t.childCount then t.descendantIds.foldl pushUnique acc1 else acc1
  | none => acc1

/-- Embedding of the container expansion (lines 1456-1472): insert each
verified dbId and, for containers, all of its descendants. -/
def expandDbIds (roots : List NTree) (verified : List Nat) : List Nat :=
  verified.foldl (expandStep roots) []

/-- The body of the `try` block of the isolate path of `syncSelectionState`
(lines 1374-1568): resolve EIDs to dbIds, fall back to show-all when none
resolve, verify and expand, then clear theming and selection, isolate,
theme and fit the camera.  Each awaited scene call can reject per the
`SyncFailSpec`; the reverse-mapping refresh (lines 1388-1398) has its own
inner `catch`, does not touch the scene, and is not modelled. -/
def syncIsolateRun (fs : SyncFailSpec) (mapping : List (String × Nat)) (roots : List NTree)
    (idsToIsolate : List String) (scene : Scene) : Except Unit Scene :=
  if fs.resolveFails then Except.error ()
  else
    let validDbIds := getDbids mapping idsToIsolate
    if validDbIds.isEmpty then Except.ok (Scene.mk none [] [] none)
    else
      let verified := verifyDbIds roots validDbIds
      let finalDbIds := expandDbIds roots verified
      if finalDbIds.isEmpty then Except.ok (Scene.mk none [] [] none)
      else
        let s1 := Scene.mk scene.isolation [] [] scene.camera
        if fs.isolateFails then Except.error ()
        else
          let s2 := Scene.mk (some finalDbIds) s1.themed s1.selection s1.camera
          if fs.themeFails then Except.error ()
          else
            let s3 := Scene.mk s2.isolation finalDbIds s2.selection s2.camera
            if fs.fitFails then Except.error ()
            else Except.ok (Scene.mk s3.isolation s3.themed s3.selection (some finalDbIds))

/-- Embedding of the isolate path of `syncSelectionState` (isolate = true,
non-empty ids, no pending selection): the `catch` handler (lines 1569-1574)
clears selection and theming and shows all.  The programmatic selection of
step 4 was removed in the source (`viewer.select` commented out), so no
branch writes a non-empty selection. -/
def syncSelectionStateIsolate (fs : SyncFailSpec) (mapping : List (String × Nat))
    (roots : List NTree) (idsToIsolate : List String) (scene : Scene) : Scene :=
  match syncIsolateRun fs mapping roots idsToIsolate scene with
  | .ok s => s
  | .error _ => failSafeScene

/-! ## `Visual.handleSelectionChange` — outgoing reconciliation pass -/

/-- The flags read by one invocation of `handleSelectionChange`:
`ready` bundles the `!this.host || !this.viewer || !this.idMapping` guard;
`hasDataView` / `hasExternalIdsColumn` guard the filter-target resolution. -/
structure SelState where
  ready : Bool
  isProgrammaticSelection : Bool
  isProcessingSelection : Bool
  isDbIdSelectionActive : Bool
  hasDataView : Bool
  hasExternalIdsColumn : Bool

/-- Result of one invocation: the updated flags, the `applyJsonFilter`
payloads emitted to the host (`none` = the null filter, i.e. clear), and
how many times `IdMapping.getExternalIds` was invoked. -/
structure SelResult where
  st : SelState
  calls : List (Option (List String))
  resolveCalls : Nat

/-- Embedding of `getSelectionAsExternalIds` (viewer.utils lines 337-350)
instrumented with a call counter: an empty viewer selection returns `[]`
without invoking the dbId-to-ExternalId conversion. -/
def getSelectionAsExternalIdsCounted (sel : List Nat) (mapping : List (String × Nat))
    (roots : List NTree) : List String × Nat :=
  if sel.isEmpty then ([], 0) else (getExternalIds mapping roots sel, 1)

/-- Embedding of one settled invocation of `handleSelectionChange`
(lines 931-1100) in which no further selection event arrives during the
pass (so the do-while body runs once; the re-entrancy/pending protocol is
the object of the `DebState` model below).  The guard order is that of the
source: missing host/viewer/mapping, then `isProgrammaticSelection`, then
`isProcessingSelection` (which queues a pending update and returns).  The
empty-selection branch emits the null filter and clears
`isDbIdSelectionActive`; the non-empty branch emits a basic `In` filter
with all selected ExternalIds and sets `isDbIdSelectionActive`.  The
`SelectionManager` side calls carry no filter payload and are not
modelled. -/
def handleSelectionChange (st : SelState) (sel : List Nat) (mapping : List (String × Nat))
    (roots : List NTree) : SelResult :=
  if !st.ready then SelResult.mk st [] 0
  else if st.isProgrammaticSelection then SelResult.mk st [] 0
  else if st.isProcessingSelection then SelResult.mk st [] 0
  else
    let res := getSelectionAsExternalIdsCounted sel mapping roots
    if res.1.isEmpty then
      SelResult.mk
        (SelState.mk st.ready st.isProgrammaticSelection st.isProcessingSelection false
          st.hasDataView st.hasExternalIdsColumn)
        [none] res.2
    else if !st.hasDataView then SelResult.mk st [] res.2
    else if !st.hasExternalIdsColumn then SelResult.mk st [] res.2
    else
      SelResult.mk
        (SelState.mk st.ready st.isProgrammaticSelection st.isProcessingSelection true
          st.hasDataView st.hasExternalIdsColumn)
        [some res.1] res.2

/-! ## `Visual.buildReverseMapping` -/

/-- JS `Map.prototype.set`: update in place if the key is present, else
append. -/
def jsMapSet (m : List (Nat × String)) (k : Nat) (v : String) : List (Nat × String) :=
  if m.any (fun p => p.1 = k) then
    m.map (fun p => if p.1 = k then (k, v) else p)
  else m ++ [(k, v)]

/-- Embedding of `buildReverseMapping` (lines 1295-1335): convert the
accumulated EIDs to dbIds with `getDbids`, return early (keeping the old
cache) when there are no EIDs or no valid dbIds, otherwise clear the cache
and set `allDbIds[i] -> externalIds[i]` for every index below both lengths.
The `dbId != null && !isNaN(dbId)` filter and per-entry guard are vacuous
for `Nat` dbIds; the `externalId` truthiness guard is the `e = ""` test. -/
def buildReverseMapping (mapping : List (String × Nat)) (externalIds : List String)
    (oldMap : List (Nat × String)) : List (Nat × String) :=
  if externalIds.isEmpty then oldMap
  else
    let allDbIds := getDbids mapping externalIds
    if allDbIds.isEmpty then oldMap
    else
      (List.range (min allDbIds.length externalIds.length)).foldl
        (fun m i =>
          let d := allDbIds.getD i 0
          let e := externalIds.getD i ""
          if e = "" then m else jsMapSet m d e)
        []

/-! ## Selection-change debouncer/serializer

The flag protocol of `handleSelectionChange` (lines 939-960 and 1093-1099)
as a small-step machine.  `timerFire` is the settled debounce timer invoking
the handler: if a pass is running (`isProcessingSelection`), it only sets
`isUpdatePending`; otherwise it takes the lock and the pass reads the
*current* viewer selection (`processedLog` records the selections actually
processed).  `passComplete` is the running pass reaching the do-while
condition: with `isUpdatePending` set it clears the flag and re-runs
against the now-current selection, keeping the lock; otherwise the
`finally` block releases the lock.  `active` is a ghost count of passes
inside the do-while. -/

structure DebState where
  processing : Bool
  pending : Bool
  viewerSel : List String
  active : Nat
  processedLog : List (List String)

inductive DebEvent where
  | timerFire : DebEvent
  | setSelection : List String → DebEvent
  | passComplete : DebEvent

def debStep (st : DebState) : DebEvent → DebState
  | .timerFire =>
    if st.processing then
      DebState.mk st.processing true st.viewerSel st.active st.processedLog
    else
      DebState.mk true false st.viewerSel (st.active + 1) (st.processedLog ++ [st.viewerSel])
  | .setSelection s =>
    DebState.mk st.processing st.pending s st.active st.processedLog
  | .passComplete =>
    if st.processing then
      if st.pending then
        DebState.mk st.processing false st.viewerSel st.active (st.processedLog ++ [st.viewerSel])
      else
        DebState.mk false st.pending st.viewerSel (st.active - 1) st.processedLog
    else st

/-- The idle initial state: no pass running, nothing pending. -/
def debInit : DebState :=
  DebState.mk false false [] 0 []

def debRun (evs : List DebEvent) : DebState :=
  evs.foldl debStep debInit

/-- The lock discipline invariant: the ghost pass count is 1 exactly while
`isProcessingSelection` is held, else 0. -/
def DebInv (st : DebState) : Prop :=
  st.active = (if st.processing then 1 else 0)

/-! ## Helper lemmas -/

theorem mem_pushUnique_self {α : Type} [DecidableEq α] (acc : List α) (x : α) :
    x ∈ pushUnique acc x := by
  unfold pushUnique
  split
  · assumption
  · simp

theorem mem_pushUnique_of_mem {α : Type} [DecidableEq α] {acc : List α} {a : α} (x : α)
    (h : a ∈ acc) : a ∈ pushUnique acc x := by
  unfold pushUnique
  split
  · exact h
  · simp [h]

theorem pushUnique_eq_append {α : Type} [DecidableEq α] (acc : List α) (x : α) :
    ∃ l, pushUnique acc x = acc ++ l := by
  unfold pushUnique
  split
  · exact ⟨[], by simp⟩
  · exact ⟨[x], rfl⟩

theorem foldl_pushUnique_eq_append {α : Type} [DecidableEq α] (xs : List α) (acc : List α) :
    ∃ l, xs.foldl pushUnique acc = acc ++ l := by
  induction xs generalizing acc with
  | nil => exact ⟨[], by simp⟩
  | cons x xs ih =>
    obtain ⟨t, ht⟩ := pushUnique_eq_append acc x
    obtain ⟨l, hl⟩ := ih (pushUnique acc x)
    refine ⟨t ++ l, ?_⟩
    rw [List.foldl_cons, hl, ht, List.append_assoc]

theorem mem_foldl_pushUnique_of_mem {α : Type} [DecidableEq α] {a : α} (xs : List α)
    {acc : List α} (h : a ∈ acc) : a ∈ xs.foldl pushUnique acc := by
  induction xs generalizing acc with
  | nil => exact h
  | cons x xs ih => exact ih (mem_pushUnique_of_mem x h)

theorem mem_foldl_pushUnique_of_mem_arg {α : Type} [DecidableEq α] {a : α} {xs : List α}
    (acc : List α) (h : a ∈ xs) : a ∈ xs.foldl pushUnique acc := by
  induction xs generalizing acc with
  | nil => cases h
  | cons x xs ih =>
    rcases List.mem_cons.mp h with rfl | h
    · exact mem_foldl_pushUnique_of_mem xs (mem_pushUnique_self acc a)
    · exact ih (pushUnique acc x) h

theorem nodup_pushUnique {α : Type} [DecidableEq α] {acc : List α} (x : α)
    (h : acc.Nodup) : (pushUnique acc x).Nodup := by
  unfold pushUnique
  split
  · exact h
  · rw [← List.concat_eq_append]
    exact List.Nodup.concat (by assumption) h

theorem nodup_foldl_pushUnique {α : Type} [DecidableEq α] (xs : List α) {acc : List α}
    (h : acc.Nodup) : (xs.foldl pushUnique acc).Nodup := by
  induction xs generalizing acc with
  | nil => exact h
  | cons x xs ih => exact ih (nodup_pushUnique x h)

theorem accumUpdate_filtered_eq (st : AccumState) (c : UpdateCycle)
    (h : c.isDataFilterApplied = true) : accumUpdate st c = st := by
  unfold accumUpdate
  simp [h]

theorem updClassify_paginating (st : UpdState) (c : UpdateCycle)
    (hp : isPaginatingB c = true) :
    updClassify st c =
      if !st.viewerReady then UpdAction.notReadyNoop
      else if isFilterClearedB st c then UpdAction.clearFilter
      else UpdAction.noop := by
  have he : isExternalFilterB st c = false := by
    simp [isExternalFilterB, hp]
  unfold updClassify
  simp [he, hp]

/-! ## C4 — pagination freeze of the accumulated dataset -/

/-- C4: across any number of update cycles with `isDataFilterApplied`, the
accumulated universe (`allRows`, `externalIds`) is left untouched (never
shrinks, never overwritten); an unfiltered non-`Create` cycle only extends
it (deduplicated union, preserving `Nodup`); and an unfiltered `Create`
cycle resets it to the current batch alone. -/
theorem accumulated_frozen_while_filtered :
    (∀ (st : AccumState) (cs : List UpdateCycle),
        (∀ c ∈ cs, c.isDataFilterApplied = true) → cs.foldl accumUpdate st = st) ∧
    (∀ (st : AccumState) (c : UpdateCycle),
        c.isDataFilterApplied = false → c.isCreate = false →
          (∃ l, (accumUpdate st c).externalIds = st.externalIds ++ l) ∧
          (∃ r, (accumUpdate st c).allRows = st.allRows ++ r) ∧
          (st.externalIds.Nodup → (accumUpdate st c).externalIds.Nodup)) ∧
    (∀ (st : AccumState) (c : UpdateCycle),
        c.isDataFilterApplied = false → c.isCreate = true →
          accumUpdate st c =
            AccumState.mk c.rows (accumulateIds [] (computeCurrentBatch c.rows))) := by
  refine ⟨?_, ?_, ?_⟩
  · intro st cs h
    induction cs generalizing st with
    | nil => rfl
    | cons c cs ih =>
      rw [List.foldl_cons, accumUpdate_filtered_eq st c (h c (List.mem_cons_self c cs))]
      exact ih st (fun c hc => h c (List.mem_cons_of_mem _ hc))
  · intro st c hf hc
    unfold accumUpdate
    simp only [hf, hc, Bool.false_and, Bool.not_false, if_neg Bool.false_ne_true, if_pos rfl]
    refine ⟨?_, ⟨c.rows, rfl⟩, ?_⟩
    · exact foldl_pushUnique_eq_append _ _
    · intro hnd
      exact nodup_foldl_pushUnique _ hnd
  · intro st c hf hc
    unfold accumUpdate
    simp [hf, hc, accumulateIds]

/-- Witness for C4 at concrete inputs: a filtered cycle leaves the
accumulated state `⟨[some "A"], ["A"]⟩` unchanged; an unfiltered `Append`
extends it; an unfiltered `Create` resets it. -/
theorem accumulated_frozen_while_filtered_witness :
    ([UpdateCycle.mk false false false true [some "B"]].foldl accumUpdate
        (AccumState.mk [some "A"] ["A"]) = AccumState.mk [some "A"] ["A"]) ∧
    (∃ l, (accumUpdate (AccumState.mk [some "A"] ["A"])
        (UpdateCycle.mk false true false false [some "B"])).externalIds = ["A"] ++ l) ∧
    (accumUpdate (AccumState.mk [some "A"] ["A"])
        (UpdateCycle.mk true false false false [some "B"]) =
      AccumState.mk [some "B"] (accumulateIds [] (computeCurrentBatch [some "B"]))) := by
  refine ⟨?_, ?_, ?_⟩
  · exact accumulated_frozen_while_filtered.1 _ _
      (by intro c hc; rw [List.mem_singleton] at hc; subst hc; rfl)
  · exact (accumulated_frozen_while_filtered.2.1 _ _ rfl rfl).1
  · exact accumulated_frozen_while_filtered.2.2 _ _ rfl rfl

/-! ## C2 — pagination cycles and the filter-state component -/

/-- C2 counterexample: an `Append` cycle (pagination in progress) with an
empty visible batch, a previously recorded filter (`lastFilteredIds = some
["A"]`), no metadata filter flag and no own selection takes the STATE 2
branch of `update()` — `clearSelection`, `clearThemingColors`, `showAll` —
a filter-clearing action, refuting the claim that such a cycle performs no
filter-clearing action. -/
theorem paginating_clear_counterexample :
    updClassify (UpdState.mk ["A"] (some ["A"]) false true)
      (UpdateCycle.mk false true false false []) = UpdAction.clearFilter := by
  decide

/-- C2 (amended): an update cycle whose operation kind is `Append` or whose
metadata still has pending segments never performs an isolation action and
never stores a pending isolation (`isExternalFilter` requires
`!isPaginating`); the filter-clearing branch, however, is not gated on
pagination. -/
theorem paginating_no_isolation (st : UpdState) (c : UpdateCycle)
    (h : c.isAppend = true ∨ c.hasSegment = true) :
    ∀ ids, updClassify st c ≠ UpdAction.isolate ids ∧
      updClassify st c ≠ UpdAction.storePending ids := by
  have hp : isPaginatingB c = true := by
    rcases h with h | h <;> simp [isPaginatingB, h]
  intro ids
  rw [updClassify_paginating st c hp]
  split
  · simp
  · split <;> simp

/-- Witness for C2 (amended) at a concrete paginating cycle. -/
theorem paginating_no_isolation_witness :
    updClassify (UpdState.mk ["A"] none false true)
        (UpdateCycle.mk false true false false [some "B"]) ≠ UpdAction.isolate ["B"] ∧
    updClassify (UpdState.mk ["A"] none false true)
        (UpdateCycle.mk false true false false [some "B"]) ≠ UpdAction.storePending ["B"] :=
  paginating_no_isolation (UpdState.mk ["A"] none false true)
    (UpdateCycle.mk false true false false [some "B"]) (Or.inl rfl) ["B"]

/-! ## C10 — index-aligned reverse cache vs the forward mapping -/

/-- C10: with the scene mapping `{"A" ↦ 1}` and accumulated EIDs
`["X", "A"]`, the EID `"X"` does not resolve, `getDbids` drops it, and the
index-aligned zip of `buildReverseMapping` associates dbId 1 — which the
forward mapping assigns to `"A"` — with the wrong EID `"X"`.  The derived
cache is therefore not consistent with the forward mapping. -/
theorem buildReverseMapping_misaligned :
    buildReverseMapping [("A", 1)] ["X", "A"] [] = [(1, "X")] ∧
    List.lookup "X" [("A", 1)] = none ∧
    List.lookup "A" [("A", 1)] = some 1 := by
  decide

/-! ## C9 — empty-selection reconciliation pass -/

/-- C9: an eligible reconciliation pass (host, viewer and mapping present,
no programmatic-selection guard, no pass already running) that reads an
empty viewer selection emits exactly one `applyJsonFilter` call with the
null filter, performs no dbId-to-ExternalId conversion, and clears the
own-selection flag. -/
theorem empty_selection_emits_clear_only (st : SelState) (mapping : List (String × Nat))
    (roots : List NTree)
    (hready : st.ready = true) (hprog : st.isProgrammaticSelection = false)
    (hproc : st.isProcessingSelection = false) :
    (handleSelectionChange st [] mapping roots).calls = [none] ∧
    (handleSelectionChange st [] mapping roots).resolveCalls = 0 ∧
    (handleSelectionChange st [] mapping roots).st.isDbIdSelectionActive = false := by
  unfold handleSelectionChange getSelectionAsExternalIdsCounted
  simp [hready, hprog, hproc]

/-- Witness for C9 at a concrete state with empty viewer selection. -/
theorem empty_selection_emits_clear_only_witness :
    (handleSelectionChange (SelState.mk true false false true true true) [] [("A", 1)]
        [NTree.node 1 []]).calls = [none] ∧
    (handleSelectionChange (SelState.mk true false false true true true) [] [("A", 1)]
        [NTree.node 1 []]).resolveCalls = 0 ∧
    (handleSelectionChange (SelState.mk true false false true true true) [] [("A", 1)]
        [NTree.node 1 []]).st.isDbIdSelectionActive = false :=
  empty_selection_emits_clear_only (SelState.mk true false false true true true)
    [("A", 1)] [NTree.node 1 []] rfl rfl rfl

/-! ## C5 — container expansion includes all descendants -/

theorem mem_expandStep_of_mem (roots : List NTree) {acc : List Nat} {a : Nat} (d : Nat)
    (h : a ∈ acc) : a ∈ expandStep roots acc d := by
  unfold expandStep
  have h1 : a ∈ pushUnique acc d := mem_pushUnique_of_mem d h
  cases findNode roots d with
  | none => exact h1
  | some t =>
    simp only []
    split
    · exact mem_foldl_pushUnique_of_mem _ h1
    · exact h1

theorem mem_expandStep_self (roots : List NTree) (acc : List Nat) (d : Nat) :
    d ∈ expandStep roots acc d := by
  unfold expandStep
  have h1 : d ∈ pushUnique acc d := mem_pushUnique_self acc d
  cases findNode roots d with
  | none => exact h1
  | some t =>
    simp only []
    split
    · exact mem_foldl_pushUnique_of_mem _ h1
    · exact h1

theorem mem_expandStep_descendant (roots : List NTree) (acc : List Nat) (d : Nat) (t : NTree)
    (ht : findNode roots d = some t) {x : Nat} (hx : x ∈ t.descendantIds) :
    x ∈ expandStep roots acc d := by
  unfold expandStep
  rw [ht]
  simp only []
  have hpos : 0 < t.childCount := by
    cases t with
    | node j cs =>
      cases cs with
      | nil => simp [NTree.descendantIds, subtreeIdsL] at hx
      | cons c cs => simp [NTree.childCount]
  rw [if_pos hpos]
  exact mem_foldl_pushUnique_of_mem_arg _ hx

theorem mem_foldl_expandStep_of_mem (roots : List NTree) {a : Nat} (vs : List Nat)
    {acc : List Nat} (h : a ∈ acc) : a ∈ vs.foldl (expandStep roots) acc := by
  induction vs generalizing acc with
  | nil => exact h
  | cons v vs ih => exact ih (mem_expandStep_of_mem roots v h)

theorem expand_includes_aux (roots : List NTree) (d : Nat) (verified : List Nat)
    (acc : List Nat) (hd : d ∈ verified) :
    d ∈ verified.foldl (expandStep roots) acc ∧
      ∀ t, findNode roots d = some t →
        ∀ x ∈ t.descendantIds, x ∈ verified.foldl (expandStep roots) acc := by
  induction verified generalizing acc with
  | nil => cases hd
  | cons v vs ih =>
    simp only [List.foldl_cons]
    rcases List.mem_cons.mp hd with rfl | hd
    · refine ⟨mem_foldl_expandStep_of_mem roots vs (mem_expandStep_self roots acc d), ?_⟩
      intro t ht x hx
      exact mem_foldl_expandStep_of_mem roots vs (mem_expandStep_descendant roots acc d t ht hx)
    · exact ih (expandStep roots acc v) hd

/-- C5: every dbId in the validated working set of `syncSelectionState` is
itself in the final isolation set, and if it is a container (its node has
children), every strict descendant — in particular every descendant leaf
node — is in the final isolation set too. -/
theorem container_expansion_includes_descendants (roots : List NTree) (verified : List Nat)
    (d : Nat) (hd : d ∈ verified) :
    d ∈ expandDbIds roots verified ∧
      ∀ t, findNode roots d = some t →
        ∀ x ∈ t.descendantIds, x ∈ expandDbIds roots verified :=
  expand_includes_aux roots d verified [] hd

/-- Witness for C5: isolating the container node 1 whose two leaf children
are 2 and 3 puts the container and both leaves into the isolation set. -/
theorem container_expansion_includes_descendants_witness :
    1 ∈ expandDbIds [NTree.node 1 [NTree.node 2 [], NTree.node 3 []]] [1] ∧
    2 ∈ expandDbIds [NTree.node 1 [NTree.node 2 [], NTree.node 3 []]] [1] ∧
    3 ∈ expandDbIds [NTree.node 1 [NTree.node 2 [], NTree.node 3 []]] [1] := by
  have h := container_expansion_includes_descendants
    [NTree.node 1 [NTree.node 2 [], NTree.node 3 []]] [1] 1 (List.mem_singleton.mpr rfl)
  refine ⟨h.1, ?_, ?_⟩
  · exact h.2 (NTree.node 1 [NTree.node 2 [], NTree.node 3 []]) rfl 2 (by
      simp [NTree.descendantIds, subtreeIdsL, subtreeIds])
  · exact h.2 (NTree.node 1 [NTree.node 2 [], NTree.node 3 []]) rfl 3 (by
      simp [NTree.descendantIds, subtreeIdsL, subtreeIds])

/-! ## C6 — fail-safe fallback of the isolation path -/

/-- C6: whenever the isolate path of `syncSelectionState` either resolves
its EIDs to zero valid dbIds in the loaded scene, or any of the awaited
resolution / isolation / theming / camera-fit steps raises, the final scene
is exactly the fail-safe state: selection cleared, theming cleared,
show-all (no isolation, camera on the whole model) — never a partially
isolated scene. -/
theorem sync_failsafe_on_zero_or_error (fs : SyncFailSpec) (mapping : List (String × Nat))
    (roots : List NTree) (ids : List String) (scene : Scene)
    (h : fs.resolveFails = true ∨ fs.isolateFails = true ∨ fs.themeFails = true ∨
      fs.fitFails = true ∨ verifyDbIds roots (getDbids mapping ids) = []) :
    syncSelectionStateIsolate fs mapping roots ids scene = failSafeScene := by
  unfold syncSelectionStateIsolate syncIsolateRun failSafeScene
  rcases h with h | h | h | h | h <;>
    simp only [h] <;> split_ifs <;> simp_all [expandDbIds]

/-- Witness for C6: a run whose EID resolution rejects ends in the
fail-safe scene, wiping a previously isolated and themed view. -/
theorem sync_failsafe_on_zero_or_error_witness :
    syncSelectionStateIsolate (SyncFailSpec.mk true false false false) [("A", 1)]
      [NTree.node 1 []] ["A"] (Scene.mk (some [2]) [3] [4] (some [2])) = failSafeScene :=
  sync_failsafe_on_zero_or_error (SyncFailSpec.mk true false false false) [("A", 1)]
    [NTree.node 1 []] ["A"] (Scene.mk (some [2]) [3] [4] (some [2])) (Or.inl rfl)

/-! ## C8 — round trip through the identifier mapping -/

theorem lookup_mem {l : List (String × Nat)} {e : String} {d : Nat}
    (h : List.lookup e l = some d) : (e, d) ∈ l := by
  induction l with
  | nil => simp [List.lookup] at h
  | cons p l ih =>
    rw [List.lookup] at h
    split at h
    · rename_i he
      have h1 : e = p.1 := by simpa using he
      obtain ⟨p1, p2⟩ := p
      simp_all
    · exact List.mem_cons_of_mem _ (ih h)

/-- C8 counterexample: with the non-injective scene mapping
`{"A" ↦ 5, "B" ↦ 5}` and the scene containing node 5, the EID `"A"` is
present in the mapping and resolves to the existing dbId 5, yet
`getExternalIds (getDbids ["A"]) = ["B"]` does not contain `"A"`: the
derived reverse index keeps only the last mapping entry for each dbId. -/
theorem roundtrip_counterexample :
    List.lookup "A" [("A", 5), ("B", 5)] = some 5 ∧
    (findNode [NTree.node 5 []] 5).isSome = true ∧
    getExternalIds [("A", 5), ("B", 5)] [NTree.node 5 []]
        (getDbids [("A", 5), ("B", 5)] ["A"]) = ["B"] ∧
    "A" ∉ getExternalIds [("A", 5), ("B", 5)] [NTree.node 5 []]
        (getDbids [("A", 5), ("B", 5)] ["A"]) := by
  decide

/-- C8 (amended): the round trip `getExternalIds (getDbids [e]) ∋ e` holds
for every EID `e` of the mapping whose dbId `d` is assigned to no other
EID by the mapping (in particular whenever the scene mapping is injective),
`e` being a trimmed non-empty string and `d` an existing scene node. -/
theorem roundtrip_of_unique_dbid (mapping : List (String × Nat)) (roots : List NTree)
    (e : String) (d : Nat)
    (htrim : jsTrim e = e) (hne : e ≠ "")
    (hlk : List.lookup e mapping = some d)
    (hinj : ∀ p ∈ mapping, p.2 = d → p.1 = e)
    (_hex : (findNode roots d).isSome = true) :
    e ∈ getExternalIds mapping roots (getDbids mapping [e]) := by
  have h1 : getDbids mapping [e] = [d] := by
    unfold getDbids
    simp [htrim, hne, hlk]
  have hmem : (e, d) ∈ mapping := lookup_mem hlk
  have hmemf : (e, d) ∈ mapping.filter (fun p => p.2 = d) := by
    simp [List.mem_filter, hmem]
  have hfne : mapping.filter (fun p => p.2 = d) ≠ [] := by
    intro hcon
    rw [hcon] at hmemf
    cases hmemf
  have h2 : reverseLookup mapping d = some e := by
    unfold reverseLookup
    obtain ⟨hp, hpm⟩ : (mapping.filter (fun p => p.2 = d)).getLast? =
        some ((mapping.filter (fun p => p.2 = d)).getLast hfne) ∧
        (mapping.filter (fun p => p.2 = d)).getLast hfne ∈
          mapping.filter (fun p => p.2 = d) :=
      ⟨List.getLast?_eq_getLast_of_ne_nil hfne, List.getLast_mem hfne⟩
    have hpd : ((mapping.filter (fun p => p.2 = d)).getLast hfne).2 = d := by
      have := (List.mem_filter.mp hpm).2
      simpa using this
    have hpe : ((mapping.filter (fun p => p.2 = d)).getLast hfne).1 = e :=
      hinj _ (List.mem_filter.mp hpm).1 hpd
    rw [hp, Option.map_some']
    exact congrArg some hpe
  have h3 : resolveSingle mapping roots d = some e := by
    unfold resolveSingle
    rw [h2]
    simp [hne]
  rw [h1]
  unfold getExternalIds
  simp [h3]

/-- Witness for C8 (amended) on the injective mapping `{"A" ↦ 5}`. -/
theorem roundtrip_of_unique_dbid_witness :
    "A" ∈ getExternalIds [("A", 5)] [NTree.node 5 []] (getDbids [("A", 5)] ["A"]) :=
  roundtrip_of_unique_dbid [("A", 5)] [NTree.node 5 []] "A" 5 rfl (by decide) rfl
    (by decide) rfl

/-! ## C7 — mutual exclusion of reconciliation passes -/

theorem debStep_inv (st : DebState) (e : DebEvent) (h : DebInv st) : DebInv (debStep st e) := by
  unfold DebInv at *
  cases e with
  | timerFire =>
    by_cases hp : st.processing <;> simp_all [debStep]
  | setSelection s => simpa [debStep] using h
  | passComplete =>
    by_cases hp : st.processing
    · by_cases hq : st.pending <;> simp_all [debStep]
    · simpa [debStep, hp] using h

theorem debRun_aux (evs : List DebEvent) (st : DebState) (h : DebInv st) :
    DebInv (evs.foldl debStep st) := by
  induction evs generalizing st with
  | nil => exact h
  | cons e evs ih => exact ih (debStep st e) (debStep_inv st e h)

/-- C7: reconciliation passes are serialized by the
`isProcessingSelection` / `isUpdatePending` protocol: (1) along every event
trace from the idle state at most one pass is active; (2) a settled timer
firing while a pass runs only records the pending flag — no new pass starts
and nothing is processed; (3) a running pass reaching the loop end with the
pending flag set clears it and re-runs against the then-current viewer
selection without releasing the lock. -/
theorem reconciliation_serialized :
    (∀ evs : List DebEvent, (debRun evs).active ≤ 1) ∧
    (∀ st : DebState, st.processing = true →
        (debStep st .timerFire).pending = true ∧
        (debStep st .timerFire).active = st.active ∧
        (debStep st .timerFire).processedLog = st.processedLog) ∧
    (∀ st : DebState, st.processing = true → st.pending = true →
        (debStep st .passComplete).processedLog = st.processedLog ++ [st.viewerSel] ∧
        (debStep st .passComplete).processing = true ∧
        (debStep st .passComplete).pending = false) := by
  refine ⟨?_, ?_, ?_⟩
  · intro evs
    have h : DebInv (debRun evs) := debRun_aux evs debInit rfl
    unfold DebInv at h
    rw [h]
    split <;> simp
  · intro st hp
    simp [debStep, hp]
  · intro st hp hq
    simp [debStep, hp, hq]

/-- Witness for C7: a trace where the timer fires during a running pass,
the selection then changes, and the pass completes — the pass count stays
at most one, the second fire only sets the pending flag, and the completing
pass reprocesses the latest selection while keeping the lock. -/
theorem reconciliation_serialized_witness :
    (debRun [DebEvent.setSelection ["A"], DebEvent.timerFire, DebEvent.timerFire,
        DebEvent.setSelection ["B"], DebEvent.passComplete]).active ≤ 1 ∧
    (debStep (DebState.mk true false ["A"] 1 [["A"]]) DebEvent.timerFire).pending = true ∧
    (debStep (DebState.mk true true ["B"] 1 [["A"]])
        DebEvent.passComplete).processedLog = [["A"], ["B"]] := by
  refine ⟨reconciliation_serialized.1 _, (reconciliation_serialized.2.1 _ rfl).1, ?_⟩
  exact (reconciliation_serialized.2.2 (DebState.mk true true ["B"] 1 [["A"]]) rfl rfl).1

/-! ## C3 — programmatic isolation causes no outgoing filter echo -/

/-- C3: while the `isProgrammaticSelection` guard is set, a selection-change
invocation emits no `applyJsonFilter` call at all; and the isolate path of
`syncSelectionState` never leaves the scene with a non-empty selection
(the programmatic `viewer.select` of step 4 is removed), so a later pass
reading that scene sees an empty selection rather than the isolated set —
a programmatic isolation of a set is never echoed back as an outgoing
filter request for that set. -/
theorem programmatic_guard_no_echo :
    (∀ (st : SelState) (sel : List Nat) (mapping : List (String × Nat)) (roots : List NTree),
        st.isProgrammaticSelection = true →
          (handleSelectionChange st sel mapping roots).calls = []) ∧
    (∀ (fs : SyncFailSpec) (mapping : List (String × Nat)) (roots : List NTree)
        (ids : List String) (scene : Scene),
          (syncSelectionStateIsolate fs mapping roots ids scene).selection = []) := by
  constructor
  · intro st sel mapping roots hprog
    unfold handleSelectionChange
    by_cases hr : st.ready <;> simp [hr, hprog]
  · intro fs mapping roots ids scene
    unfold syncSelectionStateIsolate
    cases hrun : syncIsolateRun fs mapping roots ids scene with
    | error e => rfl
    | ok s =>
      have hsel : s.selection = [] := by
        revert hrun
        unfold syncIsolateRun
        intro hrun
        split_ifs at hrun <;> try simp_all
        all_goals (try (split_ifs at hrun <;> try simp_all))
        all_goals (subst hrun; rfl)
      exact hsel

/-- Witness for C3: the guard suppresses emissions at a concrete state, and
a concrete successful isolation leaves the scene selection empty. -/
theorem programmatic_guard_no_echo_witness :
    (handleSelectionChange (SelState.mk true true false false true true) [1] [("A", 1)]
        [NTree.node 1 []]).calls = [] ∧
    (syncSelectionStateIsolate (SyncFailSpec.mk false false false false) [("A", 1)]
        [NTree.node 1 []] ["A"] (Scene.mk none [] [7] none)).selection = [] :=
  ⟨programmatic_guard_no_echo.1 (SelState.mk true true false false true true) [1] [("A", 1)]
      [NTree.node 1 []] rfl,
    programmatic_guard_no_echo.2 (SyncFailSpec.mk false false false false) [("A", 1)]
      [NTree.node 1 []] ["A"] (Scene.mk none [] [7] none)⟩

/-! ## C1 — same-cardinality, different-content batches are classified as
an external filter -/

theorem nodup_foldl_batchStep (rows : List (Option String)) {acc : List String}
    (h : acc.Nodup) : (rows.foldl batchStep acc).Nodup := by
  induction rows generalizing acc with
  | nil => exact h
  | cons cell rows ih =>
    rw [List.foldl_cons]
    cases cell with
    | none => exact ih h
    | some v =>
      by_cases he : jsTrim v = ""
      · simpa [batchStep, he] using ih h
      · simpa [batchStep, he] using ih (nodup_pushUnique _ h)

theorem computeCurrentBatch_nodup (rows : List (Option String)) :
    (computeCurrentBatch rows).Nodup :=
  nodup_foldl_batchStep rows List.nodup_nil

theorem updClassify_isolate_of (st : UpdState) (c : UpdateCycle)
    (hready : st.viewerReady = true) (hext : isExternalFilterB st c = true)
    (hp : isPaginatingB c = false) (hpos : 0 < (computeCurrentBatch c.rows).length) :
    updClassify st c = UpdAction.isolate (computeCurrentBatch c.rows) := by
  unfold updClassify
  simp [hready, hext, hp, hpos]

/-- C1: in an update cycle in which the current batch and the accumulated
EID universe have the same cardinality but different contents (viewer
ready, no pagination, no own selection in flight; on an unfiltered fresh
load — `Create` without filter — the universe is redefined to the batch
before the comparison, so the premise excludes that case), `update()`
classifies the cycle as an external filter and emits an isolation of the
current batch, not the steady state: when the metadata flag is absent, the
batch's fresh EIDs enter the accumulated universe before the count
comparison, so equal-length different-content batches still differ from
the updated universe. -/
theorem update_sameCard_diffContent_isolates (st : UpdState) (c : UpdateCycle)
    (hready : st.viewerReady = true) (hsel : st.isDbIdSelectionActive = false)
    (hap : c.isAppend = false) (hseg : c.hasSegment = false)
    (hcf : c.isCreate = false ∨ c.isDataFilterApplied = true)
    (_hnd : st.externalIds.Nodup)
    (hlen : (computeCurrentBatch c.rows).length = st.externalIds.length)
    (hdiff : ¬ ∀ x, x ∈ computeCurrentBatch c.rows ↔ x ∈ st.externalIds) :
    updClassify st c = UpdAction.isolate (computeCurrentBatch c.rows) := by
  have hpagin : isPaginatingB c = false := by
    simp [isPaginatingB, hap, hseg]
  have hx : ∃ x, x ∈ computeCurrentBatch c.rows ∧ x ∉ st.externalIds := by
    by_contra hcon
    push_neg at hcon
    have hsub : computeCurrentBatch c.rows ⊆ st.externalIds := fun {a} ha => hcon a ha
    have hsp := List.subperm_of_subset (computeCurrentBatch_nodup c.rows) hsub
    have hperm := hsp.perm_of_length_le (le_of_eq hlen.symm)
    exact hdiff (fun x => hperm.mem_iff)
  obtain ⟨x, hxc, hxa⟩ := hx
  have hpos : 0 < (computeCurrentBatch c.rows).length :=
    List.length_pos.mpr (fun h0 => by rw [h0] at hxc; cases hxc)
  cases hf : c.isDataFilterApplied with
  | true =>
    have hext : isExternalFilterB st c = true := by
      simp [isExternalFilterB, hsel, hpagin, hf]
    exact updClassify_isolate_of st c hready hext hpagin hpos
  | false =>
    have hc : c.isCreate = false := by
      rcases hcf with hc | hc
      · exact hc
      · rw [hc] at hf; cases hf
    have hpost : postAccumIds st c = accumulateIds st.externalIds (computeCurrentBatch c.rows) := by
      simp [postAccumIds, hf, hc]
    obtain ⟨l, hl⟩ := foldl_pushUnique_eq_append (computeCurrentBatch c.rows) st.externalIds
    have hlacc : accumulateIds st.externalIds (computeCurrentBatch c.rows) =
        st.externalIds ++ l := hl
    have hxE : x ∈ accumulateIds st.externalIds (computeCurrentBatch c.rows) :=
      mem_foldl_pushUnique_of_mem_arg st.externalIds hxc
    have hlne : l ≠ [] := by
      intro h0
      rw [h0, List.append_nil] at hlacc
      rw [hlacc] at hxE
      exact hxa hxE
    have hgrow : st.externalIds.length <
        (accumulateIds st.externalIds (computeCurrentBatch c.rows)).length := by
      rw [hlacc, List.length_append]
      have hlpos : 0 < l.length := List.length_pos.mpr hlne
      omega
    have hneq : (computeCurrentBatch c.rows).length ≠
        (accumulateIds st.externalIds (computeCurrentBatch c.rows)).length := by
      rw [hlen]
      omega
    have hE1pos : 0 < (accumulateIds st.externalIds (computeCurrentBatch c.rows)).length :=
      Nat.lt_of_le_of_lt (Nat.zero_le _) hgrow
    have hcount : hasFilterByCountB st c = true := by
      simp [hasFilterByCountB, hpost, hpos, hE1pos, hneq]
    have hext : isExternalFilterB st c = true := by
      simp [isExternalFilterB, hsel, hpagin, hcount]
    exact updClassify_isolate_of st c hready hext hpagin hpos

/-- Witness for C1: `accumulated = ["A","B","C"]`, `current = ["A","B","D"]`
(equal cardinality, different contents), unfiltered non-paginating cycle —
the classifier isolates the current batch. -/
theorem update_sameCard_diffContent_isolates_witness :
    updClassify (UpdState.mk ["A", "B", "C"] none false true)
      (UpdateCycle.mk false false false false [some "A", some "B", some "D"]) =
      UpdAction.isolate ["A", "B", "D"] :=
  update_sameCard_diffContent_isolates
    (UpdState.mk ["A", "B", "C"] none false true)
    (UpdateCycle.mk false false false false [some "A", some "B", some "D"])
    rfl rfl rfl rfl (Or.inl rfl) (by decide) (by decide)
    (fun hall => absurd ((hall "D").mp (by decide)) (by decide))

end BIMetric
